import Mathlib

/-!
Verification of the option-market-maker repository.

The repository holds two delta-hedging simulator scripts
(compare_volatility.py and hedging_autosim.py, each with a
DeltaHedgingSimulator class) and a Black-Scholes quoting script
(market_maker.py, class OptionMarketMaker).  The embedding below follows
the source line by line over the rationals; the numeric library routines
the scripts call (numpy exp/log/sqrt, scipy.stats norm.cdf/norm.pdf) are
abstracted as a record of rational-valued functions, so every theorem
quantifying over that record holds for any interpretation of those
routines, and concrete records are supplied where a computation is
evaluated.
-/

/-- Abstraction of the numeric library routines used by the scripts:
numpy exp, log, sqrt and the standard normal CDF and PDF of scipy. -/
structure Ops where
  exp : ℚ → ℚ
  log : ℚ → ℚ
  sqrt : ℚ → ℚ
  cdf : ℚ → ℚ
  pdf : ℚ → ℚ

/-- The one exception Python raises in the embedded fragment:
ZeroDivisionError from `self.dt = T / n_steps` when n_steps = 0. -/
inductive PyErr where
  | zeroDivisionError
deriving DecidableEq

namespace CV

/-- Instance state of compare_volatility.DeltaHedgingSimulator. -/
structure Sim where
  S : ℚ
  K : ℚ
  T : ℚ
  r : ℚ
  sigma : ℚ
  dt : ℚ
  n_steps : ℤ
  cash : ℚ
  stock_inventory : ℚ
  pnl_history : List ℚ
  stock_price_history : List ℚ
  initial_premium : ℚ
deriving DecidableEq

/-- The state DeltaHedgingSimulator.__init__ builds when n_steps is not 0. -/
def initState (S0 K T r sigma : ℚ) (n_steps : ℤ) : Sim :=
  { S := S0, K := K, T := T, r := r, sigma := sigma,
    dt := T / (n_steps : ℚ), n_steps := n_steps,
    cash := 0, stock_inventory := 0,
    pnl_history := [], stock_price_history := [S0], initial_premium := 0 }

/-- DeltaHedgingSimulator.__init__ of compare_volatility.py.  The only
raise point is the division `self.dt = T / n_steps`, hit exactly when
n_steps = 0; it sits before the portfolio fields are created. -/
def init (S0 K T r sigma : ℚ) (n_steps : ℤ) : Except PyErr Sim :=
  if n_steps = 0 then Except.error PyErr.zeroDivisionError
  else Except.ok (initState S0 K T r sigma n_steps)

/-- black_scholes_delta of compare_volatility.py; the fields self.K,
self.r, self.sigma are passed explicitly. -/
def black_scholes_delta (ops : Ops) (K r sigma S time_left : ℚ) : ℚ :=
  if time_left ≤ 0 then 0
  else
    let d1 := (ops.log (S / K) + (r + (1/2) * sigma ^ 2) * time_left) /
      (sigma * ops.sqrt time_left)
    ops.cdf d1

/-- black_scholes_price of compare_volatility.py. -/
def black_scholes_price (ops : Ops) (K r sigma S time_left : ℚ) : ℚ :=
  if time_left ≤ 0 then max (S - K) 0
  else
    let d1 := (ops.log (S / K) + (r + (1/2) * sigma ^ 2) * time_left) /
      (sigma * ops.sqrt time_left)
    let d2 := d1 - sigma * ops.sqrt time_left
    S * ops.cdf d1 - K * ops.exp (-(r * time_left)) * ops.cdf d2

/-- The re-hedge block of run (lines 47-53): unconditional trade. -/
def rehedge (sim : Sim) (target_delta : ℚ) : Sim :=
  let desired_stock := target_delta
  let trade_size := desired_stock - sim.stock_inventory
  let cost := trade_size * sim.S
  { sim with cash := sim.cash - cost,
             stock_inventory := sim.stock_inventory + trade_size }

/-- One iteration of the run loop: target delta, re-hedge, market move,
mark-to-market; returns the state plus `current_time - dt`. -/
def step (ops : Ops) (shock : ℚ) (sim : Sim) (current_time : ℚ) : Sim × ℚ :=
  let target_delta := black_scholes_delta ops sim.K sim.r sim.sigma sim.S current_time
  let sim1 := rehedge sim target_delta
  let Snew := sim1.S * ops.exp ((sim1.r - (1/2) * sim1.sigma ^ 2) * sim1.dt
    + sim1.sigma * ops.sqrt sim1.dt * shock)
  let hist1 := sim1.stock_price_history ++ [Snew]
  let sim2 := { sim1 with S := Snew, stock_price_history := hist1 }
  let optval := black_scholes_price ops sim2.K sim2.r sim2.sigma sim2.S current_time
  let pv := sim2.cash + sim2.stock_inventory * sim2.S - optval
  let sim3 := { sim2 with pnl_history := sim2.pnl_history ++ [pv] }
  (sim3, current_time - sim3.dt)

/-- The option sale at the top of run: premium credited to cash. -/
def sellOption (ops : Ops) (sim : Sim) : Sim :=
  let premium := black_scholes_price ops sim.K sim.r sim.sigma sim.S sim.T
  { sim with initial_premium := premium, cash := sim.cash + premium }

/-- Loop body as a fold step; k is the Python loop index `step`. -/
def loopStep (ops : Ops) (shocks : ℕ → ℚ) (st : Sim × ℚ) (k : ℕ) : Sim × ℚ :=
  step ops (shocks k) st.1 st.2

/-- The option sale followed by the first m loop iterations of run. -/
def runSteps (ops : Ops) (shocks : ℕ → ℚ) (sim : Sim) (m : ℕ) : Sim × ℚ :=
  (List.range m).foldl (loopStep ops shocks) (sellOption ops sim, sim.T)

/-- DeltaHedgingSimulator.run of compare_volatility.py; `range(n_steps)`
iterates n_steps.toNat times (a negative count gives an empty range). -/
def run (ops : Ops) (shocks : ℕ → ℚ) (sim : Sim) : Sim × ℚ :=
  runSteps ops shocks sim sim.n_steps.toNat

end CV

namespace HA

/-- Instance state of hedging_autosim.DeltaHedgingSimulator (same fields
as the compare_volatility twin, minus initial_premium). -/
structure Sim where
  S : ℚ
  K : ℚ
  T : ℚ
  r : ℚ
  sigma : ℚ
  dt : ℚ
  n_steps : ℤ
  cash : ℚ
  stock_inventory : ℚ
  pnl_history : List ℚ
  stock_price_history : List ℚ
deriving DecidableEq

/-- The state hedging_autosim's __init__ builds when n_steps is not 0. -/
def initState (S0 K T r sigma : ℚ) (n_steps : ℤ) : Sim :=
  { S := S0, K := K, T := T, r := r, sigma := sigma,
    dt := T / (n_steps : ℚ), n_steps := n_steps,
    cash := 0, stock_inventory := 0,
    pnl_history := [], stock_price_history := [S0] }

/-- DeltaHedgingSimulator.__init__ of hedging_autosim.py. -/
def init (S0 K T r sigma : ℚ) (n_steps : ℤ) : Except PyErr Sim :=
  if n_steps = 0 then Except.error PyErr.zeroDivisionError
  else Except.ok (initState S0 K T r sigma n_steps)

/-- black_scholes_delta of hedging_autosim.py. -/
def black_scholes_delta (ops : Ops) (K r sigma S time_left : ℚ) : ℚ :=
  if time_left ≤ 0 then 0
  else
    let d1 := (ops.log (S / K) + (r + (1/2) * sigma ^ 2) * time_left) /
      (sigma * ops.sqrt time_left)
    ops.cdf d1

/-- black_scholes_price of hedging_autosim.py. -/
def black_scholes_price (ops : Ops) (K r sigma S time_left : ℚ) : ℚ :=
  if time_left ≤ 0 then max (S - K) 0
  else
    let d1 := (ops.log (S / K) + (r + (1/2) * sigma ^ 2) * time_left) /
      (sigma * ops.sqrt time_left)
    let d2 := d1 - sigma * ops.sqrt time_left
    S * ops.cdf d1 - K * ops.exp (-(r * time_left)) * ops.cdf d2

/-- The re-hedge block of run_simulation (lines 51-57): the trade fires
only when `abs(trade_size) > 0.001`. -/
def rehedge (sim : Sim) (target_delta : ℚ) : Sim :=
  let desired_stock := target_delta
  let trade_size := desired_stock - sim.stock_inventory
  if 1/1000 < |trade_size| then
    { sim with cash := sim.cash - trade_size * sim.S,
               stock_inventory := sim.stock_inventory + trade_size }
  else sim

/-- One iteration of the run_simulation loop. -/
def step (ops : Ops) (shock : ℚ) (sim : Sim) (current_time : ℚ) : Sim × ℚ :=
  let target_delta := black_scholes_delta ops sim.K sim.r sim.sigma sim.S current_time
  let sim1 := rehedge sim target_delta
  let Snew := sim1.S * ops.exp ((sim1.r - (1/2) * sim1.sigma ^ 2) * sim1.dt
    + sim1.sigma * ops.sqrt sim1.dt * shock)
  let hist1 := sim1.stock_price_history ++ [Snew]
  let sim2 := { sim1 with S := Snew, stock_price_history := hist1 }
  let optval := black_scholes_price ops sim2.K sim2.r sim2.sigma sim2.S current_time
  let pv := sim2.cash + sim2.stock_inventory * sim2.S - optval
  let sim3 := { sim2 with pnl_history := sim2.pnl_history ++ [pv] }
  (sim3, current_time - sim3.dt)

/-- The option sale at the top of run_simulation. -/
def sellOption (ops : Ops) (sim : Sim) : Sim :=
  let initial_option_price := black_scholes_price ops sim.K sim.r sim.sigma sim.S sim.T
  { sim with cash := sim.cash + initial_option_price }

/-- Loop body as a fold step. -/
def loopStep (ops : Ops) (shocks : ℕ → ℚ) (st : Sim × ℚ) (k : ℕ) : Sim × ℚ :=
  step ops (shocks k) st.1 st.2

/-- The option sale followed by the first m loop iterations. -/
def runSteps (ops : Ops) (shocks : ℕ → ℚ) (sim : Sim) (m : ℕ) : Sim × ℚ :=
  (List.range m).foldl (loopStep ops shocks) (sellOption ops sim, sim.T)

/-- DeltaHedgingSimulator.run_simulation of hedging_autosim.py
(the console report and plotting tail is presentation, out of scope). -/
def run_simulation (ops : Ops) (shocks : ℕ → ℚ) (sim : Sim) : Sim × ℚ :=
  runSteps ops shocks sim sim.n_steps.toNat

end HA

/-- market_maker.OptionMarketMaker instance state. -/
structure OptionMarketMaker where
  S : ℚ
  sigma : ℚ
  r : ℚ := 1/20
deriving DecidableEq

namespace OptionMarketMaker

/-- d1_d2 of market_maker.py (no branch on T at all). -/
def d1_d2 (ops : Ops) (mm : OptionMarketMaker) (K T : ℚ) : ℚ × ℚ :=
  let d1 := (ops.log (mm.S / K) + (mm.r + (1/2) * mm.sigma ^ 2) * T) /
    (mm.sigma * ops.sqrt T)
  (d1, d1 - mm.sigma * ops.sqrt T)

/-- get_price_and_greeks of market_maker.py: (price, delta, gamma, theta). -/
def get_price_and_greeks (ops : Ops) (mm : OptionMarketMaker) (K T : ℚ) :
    ℚ × ℚ × ℚ × ℚ :=
  let d := d1_d2 ops mm K T
  let price := mm.S * ops.cdf d.1 - K * ops.exp (-(mm.r * T)) * ops.cdf d.2
  let delta := ops.cdf d.1
  let gamma := ops.pdf d.1 / (mm.S * mm.sigma * ops.sqrt T)
  let theta := -(mm.S * ops.pdf d.1 * mm.sigma) / (2 * ops.sqrt T)
    - mm.r * K * ops.exp (-(mm.r * T)) * ops.cdf d.2
  (price, delta, gamma, theta)

/-- make_market of market_maker.py, returning the quoted values
(fair_value, bid, ask); the prints are presentation, out of scope. -/
def make_market (ops : Ops) (mm : OptionMarketMaker) (K days_left : ℚ) :
    ℚ × ℚ × ℚ :=
  let T := days_left / 365
  let fair_value := (get_price_and_greeks ops mm K T).1
  let spread := 4/100
  (fair_value, fair_value - spread / 2, fair_value + spread / 2)

end OptionMarketMaker

/-- A concrete interpretation of the library routines used to evaluate
runs on explicit inputs: exp and cdf collapse to constants, sqrt is the
identity.  (Theorems quantified over Ops hold for this record too.) -/
def ops0 : Ops :=
  { exp := fun _ => 1, log := fun _ => 0, sqrt := fun x => x,
    cdf := fun _ => 0, pdf := fun _ => 0 }

/-- Like ops0 but the CDF returns 1/2000, putting the re-hedge trade
below hedging_autosim's 0.001 threshold. -/
def opsSmall : Ops :=
  { exp := fun _ => 1, log := fun _ => 0, sqrt := fun x => x,
    cdf := fun _ => 1/2000, pdf := fun _ => 0 }

/-- Every per-step shock fixed at 0. -/
def zeroShocks : ℕ → ℚ := fun _ => 0

/-- Market maker fixture from the script entry point: S=100, sigma=0.3. -/
def mm0 : OptionMarketMaker := { S := 100, sigma := 3/10 }

/-! ## Structural lemmas for the compare_volatility simulator -/

theorem cv_runSteps_zero (ops : Ops) (sh : ℕ → ℚ) (sim : CV.Sim) :
    CV.runSteps ops sh sim 0 = (CV.sellOption ops sim, sim.T) := rfl

theorem cv_runSteps_succ (ops : Ops) (sh : ℕ → ℚ) (sim : CV.Sim) (m : ℕ) :
    CV.runSteps ops sh sim (m + 1)
      = CV.step ops (sh m) (CV.runSteps ops sh sim m).1 (CV.runSteps ops sh sim m).2 := by
  unfold CV.runSteps
  rw [List.range_succ, List.foldl_append]
  rfl

theorem cv_step_K (ops : Ops) (z : ℚ) (sim : CV.Sim) (t : ℚ) :
    (CV.step ops z sim t).1.K = sim.K := rfl

theorem cv_step_r (ops : Ops) (z : ℚ) (sim : CV.Sim) (t : ℚ) :
    (CV.step ops z sim t).1.r = sim.r := rfl

theorem cv_step_sigma (ops : Ops) (z : ℚ) (sim : CV.Sim) (t : ℚ) :
    (CV.step ops z sim t).1.sigma = sim.sigma := rfl

theorem cv_step_dt (ops : Ops) (z : ℚ) (sim : CV.Sim) (t : ℚ) :
    (CV.step ops z sim t).1.dt = sim.dt := rfl

theorem cv_step_snd (ops : Ops) (z : ℚ) (sim : CV.Sim) (t : ℚ) :
    (CV.step ops z sim t).2 = t - sim.dt := rfl

theorem cv_step_S (ops : Ops) (z : ℚ) (sim : CV.Sim) (t : ℚ) :
    (CV.step ops z sim t).1.S
      = sim.S * ops.exp ((sim.r - (1/2) * sim.sigma ^ 2) * sim.dt
          + sim.sigma * ops.sqrt sim.dt * z) := rfl

theorem cv_step_hist (ops : Ops) (z : ℚ) (sim : CV.Sim) (t : ℚ) :
    (CV.step ops z sim t).1.stock_price_history
      = sim.stock_price_history ++ [(CV.step ops z sim t).1.S] := rfl

theorem cv_step_pnl (ops : Ops) (z : ℚ) (sim : CV.Sim) (t : ℚ) :
    (CV.step ops z sim t).1.pnl_history
      = sim.pnl_history ++
        [(CV.step ops z sim t).1.cash
          + (CV.step ops z sim t).1.stock_inventory * (CV.step ops z sim t).1.S
          - CV.black_scholes_price ops sim.K sim.r sim.sigma ((CV.step ops z sim t).1.S) t] := rfl

theorem cv_sellOption_fields (ops : Ops) (sim : CV.Sim) :
    (CV.sellOption ops sim).K = sim.K ∧ (CV.sellOption ops sim).r = sim.r
      ∧ (CV.sellOption ops sim).sigma = sim.sigma ∧ (CV.sellOption ops sim).dt = sim.dt
      ∧ (CV.sellOption ops sim).S = sim.S
      ∧ (CV.sellOption ops sim).stock_inventory = sim.stock_inventory
      ∧ (CV.sellOption ops sim).stock_price_history = sim.stock_price_history
      ∧ (CV.sellOption ops sim).pnl_history = sim.pnl_history := by
  exact ⟨rfl, rfl, rfl, rfl, rfl, rfl, rfl, rfl⟩

theorem cv_runSteps_K (ops : Ops) (sh : ℕ → ℚ) (sim : CV.Sim) (m : ℕ) :
    (CV.runSteps ops sh sim m).1.K = sim.K := by
  induction m with
  | zero => rfl
  | succ m ih => rw [cv_runSteps_succ, cv_step_K, ih]

theorem cv_runSteps_r (ops : Ops) (sh : ℕ → ℚ) (sim : CV.Sim) (m : ℕ) :
    (CV.runSteps ops sh sim m).1.r = sim.r := by
  induction m with
  | zero => rfl
  | succ m ih => rw [cv_runSteps_succ, cv_step_r, ih]

theorem cv_runSteps_sigma (ops : Ops) (sh : ℕ → ℚ) (sim : CV.Sim) (m : ℕ) :
    (CV.runSteps ops sh sim m).1.sigma = sim.sigma := by
  induction m with
  | zero => rfl
  | succ m ih => rw [cv_runSteps_succ, cv_step_sigma, ih]

theorem cv_runSteps_dt (ops : Ops) (sh : ℕ → ℚ) (sim : CV.Sim) (m : ℕ) :
    (CV.runSteps ops sh sim m).1.dt = sim.dt := by
  induction m with
  | zero => rfl
  | succ m ih => rw [cv_runSteps_succ, cv_step_dt, ih]

theorem cv_runSteps_time (ops : Ops) (sh : ℕ → ℚ) (sim : CV.Sim) (m : ℕ) :
    (CV.runSteps ops sh sim m).2 = sim.T - m * sim.dt := by
  induction m with
  | zero => simp [cv_runSteps_zero]
  | succ m ih =>
      rw [cv_runSteps_succ, cv_step_snd, cv_runSteps_dt, ih]
      push_cast
      ring

theorem cv_runSteps_hist_len (ops : Ops) (sh : ℕ → ℚ) (sim : CV.Sim) (m : ℕ) :
    (CV.runSteps ops sh sim m).1.stock_price_history.length
      = sim.stock_price_history.length + m := by
  induction m with
  | zero => rfl
  | succ m ih =>
      rw [cv_runSteps_succ, cv_step_hist, List.length_append, ih]
      simp only [List.length_cons, List.length_nil]
      omega

theorem cv_runSteps_pnl_len (ops : Ops) (sh : ℕ → ℚ) (sim : CV.Sim) (m : ℕ) :
    (CV.runSteps ops sh sim m).1.pnl_history.length = sim.pnl_history.length + m := by
  induction m with
  | zero => rfl
  | succ m ih =>
      rw [cv_runSteps_succ, cv_step_pnl, List.length_append, ih]
      simp only [List.length_cons, List.length_nil]
      omega

/-! ## Structural lemmas for the hedging_autosim simulator -/

theorem ha_rehedge_K (sim : HA.Sim) (t : ℚ) : (HA.rehedge sim t).K = sim.K := by
  simp only [HA.rehedge]
  split <;> rfl

theorem ha_rehedge_T (sim : HA.Sim) (t : ℚ) : (HA.rehedge sim t).T = sim.T := by
  simp only [HA.rehedge]
  split <;> rfl

theorem ha_rehedge_r (sim : HA.Sim) (t : ℚ) : (HA.rehedge sim t).r = sim.r := by
  simp only [HA.rehedge]
  split <;> rfl

theorem ha_rehedge_sigma (sim : HA.Sim) (t : ℚ) : (HA.rehedge sim t).sigma = sim.sigma := by
  simp only [HA.rehedge]
  split <;> rfl

theorem ha_rehedge_dt (sim : HA.Sim) (t : ℚ) : (HA.rehedge sim t).dt = sim.dt := by
  simp only [HA.rehedge]
  split <;> rfl

theorem ha_rehedge_S (sim : HA.Sim) (t : ℚ) : (HA.rehedge sim t).S = sim.S := by
  simp only [HA.rehedge]
  split <;> rfl

theorem ha_rehedge_hist (sim : HA.Sim) (t : ℚ) :
    (HA.rehedge sim t).stock_price_history = sim.stock_price_history := by
  simp only [HA.rehedge]
  split <;> rfl

theorem ha_rehedge_pnl (sim : HA.Sim) (t : ℚ) :
    (HA.rehedge sim t).pnl_history = sim.pnl_history := by
  simp only [HA.rehedge]
  split <;> rfl

theorem ha_rehedge_inventory (sim : HA.Sim) (t : ℚ) :
    (HA.rehedge sim t).stock_inventory
      = if 1/1000 < |t - sim.stock_inventory| then t else sim.stock_inventory := by
  simp only [HA.rehedge]
  split
  · show sim.stock_inventory + (t - sim.stock_inventory) = t
    ring
  · rfl

theorem ha_rehedge_cash (sim : HA.Sim) (t : ℚ) :
    (HA.rehedge sim t).cash
      = if 1/1000 < |t - sim.stock_inventory|
        then sim.cash - (t - sim.stock_inventory) * sim.S else sim.cash := by
  simp only [HA.rehedge]
  split <;> rfl

theorem ha_runSteps_zero (ops : Ops) (sh : ℕ → ℚ) (sim : HA.Sim) :
    HA.runSteps ops sh sim 0 = (HA.sellOption ops sim, sim.T) := rfl

theorem ha_runSteps_succ (ops : Ops) (sh : ℕ → ℚ) (sim : HA.Sim) (m : ℕ) :
    HA.runSteps ops sh sim (m + 1)
      = HA.step ops (sh m) (HA.runSteps ops sh sim m).1 (HA.runSteps ops sh sim m).2 := by
  unfold HA.runSteps
  rw [List.range_succ, List.foldl_append]
  rfl

theorem ha_step_K (ops : Ops) (z : ℚ) (sim : HA.Sim) (t : ℚ) :
    (HA.step ops z sim t).1.K = sim.K := by
  simp only [HA.step]
  exact ha_rehedge_K sim _

theorem ha_step_r (ops : Ops) (z : ℚ) (sim : HA.Sim) (t : ℚ) :
    (HA.step ops z sim t).1.r = sim.r := by
  simp only [HA.step]
  exact ha_rehedge_r sim _

theorem ha_step_sigma (ops : Ops) (z : ℚ) (sim : HA.Sim) (t : ℚ) :
    (HA.step ops z sim t).1.sigma = sim.sigma := by
  simp only [HA.step]
  exact ha_rehedge_sigma sim _

theorem ha_step_dt (ops : Ops) (z : ℚ) (sim : HA.Sim) (t : ℚ) :
    (HA.step ops z sim t).1.dt = sim.dt := by
  simp only [HA.step]
  exact ha_rehedge_dt sim _

theorem ha_step_snd (ops : Ops) (z : ℚ) (sim : HA.Sim) (t : ℚ) :
    (HA.step ops z sim t).2 = t - sim.dt := by
  simp only [HA.step]
  rw [ha_rehedge_dt]

theorem ha_step_S (ops : Ops) (z : ℚ) (sim : HA.Sim) (t : ℚ) :
    (HA.step ops z sim t).1.S
      = sim.S * ops.exp ((sim.r - (1/2) * sim.sigma ^ 2) * sim.dt
          + sim.sigma * ops.sqrt sim.dt * z) := by
  simp only [HA.step]
  rw [ha_rehedge_S, ha_rehedge_r, ha_rehedge_sigma, ha_rehedge_dt]

theorem ha_step_hist (ops : Ops) (z : ℚ) (sim : HA.Sim) (t : ℚ) :
    (HA.step ops z sim t).1.stock_price_history
      = sim.stock_price_history ++ [(HA.step ops z sim t).1.S] := by
  simp only [HA.step]
  rw [ha_rehedge_hist]

theorem ha_step_pnl (ops : Ops) (z : ℚ) (sim : HA.Sim) (t : ℚ) :
    (HA.step ops z sim t).1.pnl_history
      = sim.pnl_history ++
        [(HA.step ops z sim t).1.cash
          + (HA.step ops z sim t).1.stock_inventory * (HA.step ops z sim t).1.S
          - HA.black_scholes_price ops sim.K sim.r sim.sigma ((HA.step ops z sim t).1.S) t] := by
  simp only [HA.step]
  rw [ha_rehedge_pnl, ha_rehedge_K, ha_rehedge_r, ha_rehedge_sigma]

theorem ha_runSteps_K (ops : Ops) (sh : ℕ → ℚ) (sim : HA.Sim) (m : ℕ) :
    (HA.runSteps ops sh sim m).1.K = sim.K := by
  induction m with
  | zero => rfl
  | succ m ih => rw [ha_runSteps_succ, ha_step_K, ih]

theorem ha_runSteps_r (ops : Ops) (sh : ℕ → ℚ) (sim : HA.Sim) (m : ℕ) :
    (HA.runSteps ops sh sim m).1.r = sim.r := by
  induction m with
  | zero => rfl
  | succ m ih => rw [ha_runSteps_succ, ha_step_r, ih]

theorem ha_runSteps_sigma (ops : Ops) (sh : ℕ → ℚ) (sim : HA.Sim) (m : ℕ) :
    (HA.runSteps ops sh sim m).1.sigma = sim.sigma := by
  induction m with
  | zero => rfl
  | succ m ih => rw [ha_runSteps_succ, ha_step_sigma, ih]

theorem ha_runSteps_dt (ops : Ops) (sh : ℕ → ℚ) (sim : HA.Sim) (m : ℕ) :
    (HA.runSteps ops sh sim m).1.dt = sim.dt := by
  induction m with
  | zero => rfl
  | succ m ih => rw [ha_runSteps_succ, ha_step_dt, ih]

theorem ha_runSteps_time (ops : Ops) (sh : ℕ → ℚ) (sim : HA.Sim) (m : ℕ) :
    (HA.runSteps ops sh sim m).2 = sim.T - m * sim.dt := by
  induction m with
  | zero => simp [ha_runSteps_zero]
  | succ m ih =>
      rw [ha_runSteps_succ, ha_step_snd, ha_runSteps_dt, ih]
      push_cast
      ring

theorem ha_runSteps_hist_len (ops : Ops) (sh : ℕ → ℚ) (sim : HA.Sim) (m : ℕ) :
    (HA.runSteps ops sh sim m).1.stock_price_history.length
      = sim.stock_price_history.length + m := by
  induction m with
  | zero => rfl
  | succ m ih =>
      rw [ha_runSteps_succ, ha_step_hist, List.length_append, ih]
      simp only [List.length_cons, List.length_nil]
      omega

theorem ha_runSteps_pnl_len (ops : Ops) (sh : ℕ → ℚ) (sim : HA.Sim) (m : ℕ) :
    (HA.runSteps ops sh sim m).1.pnl_history.length = sim.pnl_history.length + m := by
  induction m with
  | zero => rfl
  | succ m ih =>
      rw [ha_runSteps_succ, ha_step_pnl, List.length_append, ih]
      simp only [List.length_cons, List.length_nil]
      omega

/-! ## Deterministic drift of the price path under zero shocks -/

theorem exp_hom_pow (ops : Ops)
    (hE : ∀ a b : ℚ, ops.exp (a + b) = ops.exp a * ops.exp b)
    (h1 : ops.exp 0 = 1) (c : ℚ) (k : ℕ) :
    ops.exp ((k : ℚ) * c) = ops.exp c ^ k := by
  induction k with
  | zero => simpa using h1
  | succ k ih =>
      have hc : ((k + 1 : ℕ) : ℚ) * c = (k : ℚ) * c + c := by
        push_cast
        ring
      rw [hc, hE, ih, pow_succ]

theorem cv_runSteps_spot (ops : Ops) (sim : CV.Sim) (m : ℕ) :
    (CV.runSteps ops zeroShocks sim m).1.S
        = sim.S * ops.exp ((sim.r - (1/2) * sim.sigma ^ 2) * sim.dt) ^ m
  ∧ (CV.runSteps ops zeroShocks sim m).1.stock_price_history
        = sim.stock_price_history ++ (List.range m).map
            (fun j => sim.S * ops.exp ((sim.r - (1/2) * sim.sigma ^ 2) * sim.dt) ^ (j + 1)) := by
  induction m with
  | zero =>
      constructor
      · simp [cv_runSteps_zero, CV.sellOption]
      · simp [cv_runSteps_zero, CV.sellOption]
  | succ m ih =>
      obtain ⟨hS, hH⟩ := ih
      have hz : zeroShocks m = 0 := rfl
      have hstep := cv_step_S ops 0
        (CV.runSteps ops zeroShocks sim m).1 (CV.runSteps ops zeroShocks sim m).2
      rw [cv_runSteps_r, cv_runSteps_sigma, cv_runSteps_dt, hS, mul_zero, add_zero] at hstep
      constructor
      · rw [cv_runSteps_succ, hz, hstep, pow_succ]
        ring
      · rw [cv_runSteps_succ, cv_step_hist, hz, hstep, hH, List.range_succ, List.map_append,
          List.append_assoc]
        congr 1
        congr 1
        simp only [List.map_cons, List.map_nil, List.cons.injEq, and_true]
        rw [pow_succ]
        ring

theorem ha_runSteps_spot (ops : Ops) (sim : HA.Sim) (m : ℕ) :
    (HA.runSteps ops zeroShocks sim m).1.S
        = sim.S * ops.exp ((sim.r - (1/2) * sim.sigma ^ 2) * sim.dt) ^ m
  ∧ (HA.runSteps ops zeroShocks sim m).1.stock_price_history
        = sim.stock_price_history ++ (List.range m).map
            (fun j => sim.S * ops.exp ((sim.r - (1/2) * sim.sigma ^ 2) * sim.dt) ^ (j + 1)) := by
  induction m with
  | zero =>
      constructor
      · simp [ha_runSteps_zero, HA.sellOption]
      · simp [ha_runSteps_zero, HA.sellOption]
  | succ m ih =>
      obtain ⟨hS, hH⟩ := ih
      have hz : zeroShocks m = 0 := rfl
      have hstep := ha_step_S ops 0
        (HA.runSteps ops zeroShocks sim m).1 (HA.runSteps ops zeroShocks sim m).2
      rw [ha_runSteps_r, ha_runSteps_sigma, ha_runSteps_dt, hS, mul_zero, add_zero] at hstep
      constructor
      · rw [ha_runSteps_succ, hz, hstep, pow_succ]
        ring
      · rw [ha_runSteps_succ, ha_step_hist, hz, hstep, hH, List.range_succ, List.map_append,
          List.append_assoc]
        congr 1
        congr 1
        simp only [List.map_cons, List.map_nil, List.cons.injEq, and_true]
        rw [pow_succ]
        ring

/-! ## Claim theorems -/

/-- C5: at the expiry boundary, for every spot S and strike K, whenever
time_left ≤ 0 both simulators' pricers return exactly the intrinsic value
max(S − K, 0) and both delta functions return exactly 0; these are silent
defined branches of total functions (no exception is modelled or needed). -/
theorem C5_expiry_boundary (ops : Ops) (K r sigma S t : ℚ) (h : t ≤ 0) :
    CV.black_scholes_price ops K r sigma S t = max (S - K) 0
  ∧ CV.black_scholes_delta ops K r sigma S t = 0
  ∧ HA.black_scholes_price ops K r sigma S t = max (S - K) 0
  ∧ HA.black_scholes_delta ops K r sigma S t = 0 := by
  unfold CV.black_scholes_price CV.black_scholes_delta
    HA.black_scholes_price HA.black_scholes_delta
  simp only [if_pos h]
  exact ⟨trivial, trivial, trivial, trivial⟩

/-- Witness for C5 at S = 5, K = 1, t = 0. -/
theorem C5_expiry_boundary_witness :
    CV.black_scholes_price ops0 1 0 1 5 0 = max (5 - 1) 0
  ∧ CV.black_scholes_delta ops0 1 0 1 5 0 = 0
  ∧ HA.black_scholes_price ops0 1 0 1 5 0 = max (5 - 1) 0
  ∧ HA.black_scholes_delta ops0 1 0 1 5 0 = 0 :=
  C5_expiry_boundary ops0 1 0 1 5 0 (le_refl 0)

/-- C6: every quote of make_market satisfies ask − bid = 0.04 exactly,
with bid = fair − spread/2 and ask = fair + spread/2, for every fair
value (any Ops interpretation, any strike, any time to expiry). -/
theorem C6_spread_exact (ops : Ops) (mm : OptionMarketMaker) (K days_left : ℚ) :
    (OptionMarketMaker.make_market ops mm K days_left).2.2
        - (OptionMarketMaker.make_market ops mm K days_left).2.1 = 4/100
  ∧ (OptionMarketMaker.make_market ops mm K days_left).2.1
      = (OptionMarketMaker.get_price_and_greeks ops mm K (days_left / 365)).1 - (4/100)/2
  ∧ (OptionMarketMaker.make_market ops mm K days_left).2.2
      = (OptionMarketMaker.get_price_and_greeks ops mm K (days_left / 365)).1 + (4/100)/2 := by
  refine ⟨?_, rfl, rfl⟩
  show (OptionMarketMaker.get_price_and_greeks ops mm K (days_left / 365)).1 + (4/100)/2
      - ((OptionMarketMaker.get_price_and_greeks ops mm K (days_left / 365)).1 - (4/100)/2)
      = 4/100
  ring

/-- C10: the re-hedge operation is self-financing in both simulators: it
leaves cash + inventory · S unchanged at the pre-move price S, whether
the trade executes (cash moves by exactly trade · S against inventory)
or, in hedging_autosim, is skipped by the threshold. -/
theorem C10_self_financing (simA : CV.Sim) (tA : ℚ) (simB : HA.Sim) (tB : ℚ) :
    (CV.rehedge simA tA).cash + (CV.rehedge simA tA).stock_inventory * simA.S
        = simA.cash + simA.stock_inventory * simA.S
  ∧ (HA.rehedge simB tB).cash + (HA.rehedge simB tB).stock_inventory * simB.S
        = simB.cash + simB.stock_inventory * simB.S := by
  constructor
  · show simA.cash - (tA - simA.stock_inventory) * simA.S
        + (simA.stock_inventory + (tA - simA.stock_inventory)) * simA.S
        = simA.cash + simA.stock_inventory * simA.S
    ring
  · rw [ha_rehedge_cash, ha_rehedge_inventory]
    by_cases h : 1/1000 < |tB - simB.stock_inventory|
    · rw [if_pos h, if_pos h]
      ring
    · rw [if_neg h, if_neg h]

/-- C2 amended: compare_volatility re-hedges unconditionally (inventory
becomes target_delta, cash moves by trade·S every step), but
hedging_autosim executes the trade only when |trade| > 0.001; otherwise
cash and inventory are left unchanged, so inventory equals target_delta
after the re-hedge only when the trade fires. -/
theorem C2_amended_rehedge_threshold (simA : CV.Sim) (tA : ℚ) (simB : HA.Sim) (tB : ℚ) :
    (CV.rehedge simA tA).stock_inventory = tA
  ∧ (CV.rehedge simA tA).cash = simA.cash - (tA - simA.stock_inventory) * simA.S
  ∧ (HA.rehedge simB tB).stock_inventory
      = (if 1/1000 < |tB - simB.stock_inventory| then tB else simB.stock_inventory)
  ∧ (HA.rehedge simB tB).cash
      = (if 1/1000 < |tB - simB.stock_inventory|
         then simB.cash - (tB - simB.stock_inventory) * simB.S else simB.cash) := by
  refine ⟨?_, rfl, ha_rehedge_inventory simB tB, ha_rehedge_cash simB tB⟩
  show simA.stock_inventory + (tA - simA.stock_inventory) = tA
  ring

/-- C2 counterexample: in a hedging_autosim run (S0=K=1, T=1, r=0, σ=1,
n_steps=1) with a CDF interpretation returning 1/2000, the step-0 target
delta is 1/2000 but the trade (of size 1/2000 ≤ 0.001) is skipped, so
inventory after the transition is 0 ≠ target_delta: the re-hedge is not
unconditional. -/
theorem C2_counterexample :
    HA.init 1 1 1 0 1 1 = Except.ok (HA.initState 1 1 1 0 1 1)
  ∧ HA.black_scholes_delta opsSmall (HA.initState 1 1 1 0 1 1).K
      (HA.initState 1 1 1 0 1 1).r (HA.initState 1 1 1 0 1 1).sigma
      (HA.initState 1 1 1 0 1 1).S (HA.initState 1 1 1 0 1 1).T = 1/2000
  ∧ (HA.run_simulation opsSmall zeroShocks (HA.initState 1 1 1 0 1 1)).1.stock_inventory = 0
  ∧ (0 : ℚ) ≠ 1/2000 := by
  refine ⟨by norm_num [HA.init], ?_, ?_, by norm_num⟩
  · norm_num [HA.black_scholes_delta, HA.initState, opsSmall]
  · norm_num [HA.run_simulation, HA.runSteps, HA.loopStep, HA.step, HA.rehedge, HA.sellOption,
      HA.black_scholes_price, HA.black_scholes_delta, HA.initState, zeroShocks, opsSmall,
      List.range_succ, abs]

/-- C7: every successful run with n_steps ≥ 1 produces a PricePath of
exactly n_steps + 1 elements (starting from the initial spot) and a
PnLSeries of exactly n_steps elements, in both simulators. -/
theorem C7_lengths (ops : Ops) (sh : ℕ → ℚ) (S0 K T r sigma : ℚ) (n : ℤ)
    (simA : CV.Sim) (simB : HA.Sim) (hn : 1 ≤ n)
    (hA : CV.init S0 K T r sigma n = Except.ok simA)
    (hB : HA.init S0 K T r sigma n = Except.ok simB) :
    (CV.run ops sh simA).1.stock_price_history.length = n.toNat + 1
  ∧ (CV.run ops sh simA).1.pnl_history.length = n.toNat
  ∧ (HA.run_simulation ops sh simB).1.stock_price_history.length = n.toNat + 1
  ∧ (HA.run_simulation ops sh simB).1.pnl_history.length = n.toNat := by
  have hn0 : ¬ n = 0 := by omega
  unfold CV.init at hA
  unfold HA.init at hB
  rw [if_neg hn0] at hA hB
  injection hA with hA
  injection hB with hB
  subst hA
  subst hB
  unfold CV.run HA.run_simulation
  rw [cv_runSteps_hist_len, cv_runSteps_pnl_len, ha_runSteps_hist_len, ha_runSteps_pnl_len]
  simp only [CV.initState, HA.initState, List.length_cons, List.length_nil]
  omega

/-- Witness for C7 at S0=K=100, T=1, r=0, σ=1, n_steps=1. -/
theorem C7_lengths_witness :
    (CV.run ops0 zeroShocks (CV.initState 100 100 1 0 1 1)).1.stock_price_history.length
        = (1 : ℤ).toNat + 1
  ∧ (CV.run ops0 zeroShocks (CV.initState 100 100 1 0 1 1)).1.pnl_history.length = (1 : ℤ).toNat
  ∧ (HA.run_simulation ops0 zeroShocks (HA.initState 100 100 1 0 1 1)).1.stock_price_history.length
        = (1 : ℤ).toNat + 1
  ∧ (HA.run_simulation ops0 zeroShocks (HA.initState 100 100 1 0 1 1)).1.pnl_history.length
        = (1 : ℤ).toNat :=
  C7_lengths ops0 zeroShocks 100 100 1 0 1 1 (CV.initState 100 100 1 0 1 1)
    (HA.initState 100 100 1 0 1 1) (by norm_num)
    (by norm_num [CV.init]) (by norm_num [HA.init])

/-- C1 amended: the PnL entry appended at step k equals
cash + inventory · S_{k+1} − price(S_{k+1}, time_left_k) where the
option is revalued at the post-move spot S_{k+1} but at the PRE-advance
remaining time time_left_k = T − k·Δt: in both simulators current_time
is decremented only after the mark-to-market, so the entry does not use
time_left_{k+1} = T − (k+1)·Δt. -/
theorem C1_amended_mark_time (ops : Ops) (sh : ℕ → ℚ) (simA : CV.Sim) (simB : HA.Sim) (k : ℕ) :
    (CV.runSteps ops sh simA (k + 1)).1.pnl_history
      = (CV.runSteps ops sh simA k).1.pnl_history
        ++ [(CV.runSteps ops sh simA (k + 1)).1.cash
            + (CV.runSteps ops sh simA (k + 1)).1.stock_inventory
              * (CV.runSteps ops sh simA (k + 1)).1.S
            - CV.black_scholes_price ops simA.K simA.r simA.sigma
                ((CV.runSteps ops sh simA (k + 1)).1.S) (simA.T - k * simA.dt)]
  ∧ (HA.runSteps ops sh simB (k + 1)).1.pnl_history
      = (HA.runSteps ops sh simB k).1.pnl_history
        ++ [(HA.runSteps ops sh simB (k + 1)).1.cash
            + (HA.runSteps ops sh simB (k + 1)).1.stock_inventory
              * (HA.runSteps ops sh simB (k + 1)).1.S
            - HA.black_scholes_price ops simB.K simB.r simB.sigma
                ((HA.runSteps ops sh simB (k + 1)).1.S) (simB.T - k * simB.dt)] := by
  constructor
  · have h := cv_step_pnl ops (sh k) (CV.runSteps ops sh simA k).1 (CV.runSteps ops sh simA k).2
    rw [cv_runSteps_K, cv_runSteps_r, cv_runSteps_sigma] at h
    rw [cv_runSteps_succ, ← cv_runSteps_time ops sh simA k]
    exact h
  · have h := ha_step_pnl ops (sh k) (HA.runSteps ops sh simB k).1 (HA.runSteps ops sh simB k).2
    rw [ha_runSteps_K, ha_runSteps_r, ha_runSteps_sigma] at h
    rw [ha_runSteps_succ, ← ha_runSteps_time ops sh simB k]
    exact h

/-- C1 counterexample: with S0=2, K=1, T=1, r=0, σ=1, n_steps=1 and the
ops0 interpretation, the single recorded PnL entry is 0, while the
claim's formula cash + inventory·S_1 − price(S_1, T − (0+1)·Δt) equals
−1 (the option is in fact revalued at T − 0·Δt = 1, not at 0). -/
theorem C1_counterexample :
    CV.init 2 1 1 0 1 1 = Except.ok (CV.initState 2 1 1 0 1 1)
  ∧ (CV.run ops0 zeroShocks (CV.initState 2 1 1 0 1 1)).1.pnl_history = [0]
  ∧ (CV.run ops0 zeroShocks (CV.initState 2 1 1 0 1 1)).1.cash
      + (CV.run ops0 zeroShocks (CV.initState 2 1 1 0 1 1)).1.stock_inventory
        * (CV.run ops0 zeroShocks (CV.initState 2 1 1 0 1 1)).1.S
      - CV.black_scholes_price ops0 (CV.initState 2 1 1 0 1 1).K (CV.initState 2 1 1 0 1 1).r
          (CV.initState 2 1 1 0 1 1).sigma
          ((CV.run ops0 zeroShocks (CV.initState 2 1 1 0 1 1)).1.S)
          ((CV.initState 2 1 1 0 1 1).T - (0 + 1) * (CV.initState 2 1 1 0 1 1).dt)
      = -1
  ∧ (0 : ℚ) ≠ -1 := by
  refine ⟨by norm_num [CV.init], ?_, ?_, by norm_num⟩
  · norm_num [CV.run, CV.runSteps, CV.loopStep, CV.step, CV.rehedge, CV.sellOption,
      CV.black_scholes_price, CV.black_scholes_delta, CV.initState, zeroShocks, ops0,
      List.range_succ]
  · norm_num [CV.run, CV.runSteps, CV.loopStep, CV.step, CV.rehedge, CV.sellOption,
      CV.black_scholes_price, CV.black_scholes_delta, CV.initState, zeroShocks, ops0,
      List.range_succ]

/-- C3 amended: no parameter validation exists.  Only n_steps = 0 raises
(ZeroDivisionError computing Δt in __init__, before the portfolio fields
are created); every other step count, and any volatility ≤ 0 or negative
time-to-expiry, constructs the simulator normally, and a run with σ ≤ 0
and n ≥ 1 completes while appending n PnL entries and n price entries —
the simulation neither fails nor avoids state mutation. -/
theorem C3_amended_validation :
    (∀ S0 K T r sigma : ℚ,
        CV.init S0 K T r sigma 0 = Except.error PyErr.zeroDivisionError
        ∧ HA.init S0 K T r sigma 0 = Except.error PyErr.zeroDivisionError)
  ∧ (∀ (S0 K T r sigma : ℚ) (n : ℤ), n ≠ 0 →
        CV.init S0 K T r sigma n = Except.ok (CV.initState S0 K T r sigma n)
        ∧ HA.init S0 K T r sigma n = Except.ok (HA.initState S0 K T r sigma n))
  ∧ (∀ (ops : Ops) (sh : ℕ → ℚ) (S0 K T r sigma : ℚ) (n : ℤ), sigma ≤ 0 → 0 < n →
        (CV.run ops sh (CV.initState S0 K T r sigma n)).1.pnl_history.length = n.toNat
        ∧ (CV.run ops sh (CV.initState S0 K T r sigma n)).1.stock_price_history.length
            = n.toNat + 1) := by
  refine ⟨?_, ?_, ?_⟩
  · intro S0 K T r sigma
    exact ⟨rfl, rfl⟩
  · intro S0 K T r sigma n hn
    constructor
    · unfold CV.init
      rw [if_neg hn]
    · unfold HA.init
      rw [if_neg hn]
  · intro ops sh S0 K T r sigma n hs hn
    constructor
    · unfold CV.run
      rw [cv_runSteps_pnl_len]
      simp only [CV.initState, List.length_nil]
      omega
    · unfold CV.run
      rw [cv_runSteps_hist_len]
      simp only [CV.initState, List.length_cons, List.length_nil]
      omega

/-- Witness for C3 amended: n_steps = 0 raises; σ = −1 constructs and a
1-step run records one PnL entry. -/
theorem C3_amended_validation_witness :
    CV.init 1 1 1 0 1 0 = Except.error PyErr.zeroDivisionError
  ∧ CV.init 2 1 1 0 (-1) 1 = Except.ok (CV.initState 2 1 1 0 (-1) 1)
  ∧ (CV.run ops0 zeroShocks (CV.initState 2 1 1 0 (-1) 1)).1.pnl_history.length = (1 : ℤ).toNat :=
  ⟨(C3_amended_validation.1 1 1 1 0 1).1,
   (C3_amended_validation.2.1 2 1 1 0 (-1) 1 (by norm_num)).1,
   (C3_amended_validation.2.2 ops0 zeroShocks 2 1 1 0 (-1) 1 (by norm_num) (by norm_num)).1⟩

/-- C3 counterexample: volatility −1 ≤ 0, yet the simulation does not
fail: the constructor succeeds and the 1-step run completes, appending
one PnL entry and one PricePath entry (state is mutated), contradicting
fail-fast validation. -/
theorem C3_counterexample :
    CV.init 100 100 1 0 (-1) 1 = Except.ok (CV.initState 100 100 1 0 (-1) 1)
  ∧ (CV.run ops0 zeroShocks (CV.initState 100 100 1 0 (-1) 1)).1.pnl_history.length = 1
  ∧ (CV.run ops0 zeroShocks (CV.initState 100 100 1 0 (-1) 1)).1.stock_price_history.length
      = 2 := by
  refine ⟨by norm_num [CV.init], ?_, ?_⟩
  · norm_num [CV.run, CV.runSteps, CV.loopStep, CV.step, CV.rehedge, CV.sellOption,
      CV.black_scholes_price, CV.black_scholes_delta, CV.initState, zeroShocks, ops0,
      List.range_succ]
  · norm_num [CV.run, CV.runSteps, CV.loopStep, CV.step, CV.rehedge, CV.sellOption,
      CV.black_scholes_price, CV.black_scholes_delta, CV.initState, zeroShocks, ops0,
      List.range_succ]

/-- C4 counterexample: at days_left = 0 (T = 0), with strike 100 against
mm0 (S = 100), the quote is not degenerate: bid ≠ ask, and neither
equals the intrinsic value max(S − K, 0) = 0 (bid = fair − 0.02,
ask = fair + 0.02). -/
theorem C4_counterexample :
    (OptionMarketMaker.make_market ops0 mm0 100 0).2.1
        ≠ (OptionMarketMaker.make_market ops0 mm0 100 0).2.2
  ∧ (OptionMarketMaker.make_market ops0 mm0 100 0).2.1 ≠ max (mm0.S - 100) 0
  ∧ (OptionMarketMaker.make_market ops0 mm0 100 0).2.2 ≠ max (mm0.S - 100) 0 := by
  norm_num [OptionMarketMaker.make_market, OptionMarketMaker.get_price_and_greeks,
    OptionMarketMaker.d1_d2, ops0, mm0]

/-- C4 amended: make_market has no T ≤ 0 branch at all: for every
time-to-expiry ≤ 0 it still prices through the Black-Scholes formula and
quotes the fixed spread around that fair value, so bid = fair − 0.02,
ask = fair + 0.02, ask − bid = 0.04 and in particular bid ≠ ask — no
degenerate intrinsic-value quote (and no exception) is produced. -/
theorem C4_amended_no_degenerate_quote (ops : Ops) (mm : OptionMarketMaker)
    (K days_left : ℚ) (h : days_left ≤ 0) :
    (OptionMarketMaker.make_market ops mm K days_left).2.2
        - (OptionMarketMaker.make_market ops mm K days_left).2.1 = 4/100
  ∧ (OptionMarketMaker.make_market ops mm K days_left).2.1
      = (OptionMarketMaker.get_price_and_greeks ops mm K (days_left / 365)).1 - (4/100)/2
  ∧ (OptionMarketMaker.make_market ops mm K days_left).2.2
      = (OptionMarketMaker.get_price_and_greeks ops mm K (days_left / 365)).1 + (4/100)/2
  ∧ (OptionMarketMaker.make_market ops mm K days_left).2.1
      ≠ (OptionMarketMaker.make_market ops mm K days_left).2.2 := by
  refine ⟨?_, rfl, rfl, ?_⟩
  · show (OptionMarketMaker.get_price_and_greeks ops mm K (days_left / 365)).1 + (4/100)/2
        - ((OptionMarketMaker.get_price_and_greeks ops mm K (days_left / 365)).1 - (4/100)/2)
        = 4/100
    ring
  · intro he
    have he2 : (OptionMarketMaker.get_price_and_greeks ops mm K (days_left / 365)).1 - (4/100)/2
        = (OptionMarketMaker.get_price_and_greeks ops mm K (days_left / 365)).1 + (4/100)/2 := he
    linarith

/-- Witness for C4 amended at days_left = 0. -/
theorem C4_amended_no_degenerate_quote_witness :
    (OptionMarketMaker.make_market ops0 mm0 100 0).2.2
        - (OptionMarketMaker.make_market ops0 mm0 100 0).2.1 = 4/100
  ∧ (OptionMarketMaker.make_market ops0 mm0 100 0).2.1
      = (OptionMarketMaker.get_price_and_greeks ops0 mm0 100 ((0 : ℚ) / 365)).1 - (4/100)/2
  ∧ (OptionMarketMaker.make_market ops0 mm0 100 0).2.2
      = (OptionMarketMaker.get_price_and_greeks ops0 mm0 100 ((0 : ℚ) / 365)).1 + (4/100)/2
  ∧ (OptionMarketMaker.make_market ops0 mm0 100 0).2.1
      ≠ (OptionMarketMaker.make_market ops0 mm0 100 0).2.2 :=
  C4_amended_no_degenerate_quote ops0 mm0 100 0 (le_refl 0)

/-- C8: with the per-step shock fixed at 0 and ops.exp interpreted as any
exponential homomorphism (exp(a+b) = exp a · exp b, exp 0 = 1, as the
real exponential is), element k of PricePath equals
S0 · exp((r − σ²/2)·k·Δt) exactly, for every k ≤ n_steps, in both
simulators. -/
theorem C8_zero_shock_drift (ops : Ops)
    (hE : ∀ a b : ℚ, ops.exp (a + b) = ops.exp a * ops.exp b)
    (h1 : ops.exp 0 = 1)
    (simA : CV.Sim) (hhA : simA.stock_price_history = [simA.S])
    (simB : HA.Sim) (hhB : simB.stock_price_history = [simB.S])
    (k j : ℕ) (hk : k ≤ simA.n_steps.toNat) (hj : j ≤ simB.n_steps.toNat) :
    (CV.run ops zeroShocks simA).1.stock_price_history[k]?
        = some (simA.S * ops.exp ((simA.r - simA.sigma ^ 2 / 2) * (k : ℚ) * simA.dt))
  ∧ (HA.run_simulation ops zeroShocks simB).1.stock_price_history[j]?
        = some (simB.S * ops.exp ((simB.r - simB.sigma ^ 2 / 2) * (j : ℚ) * simB.dt)) := by
  constructor
  · have hH := (cv_runSteps_spot ops simA simA.n_steps.toNat).2
    rw [hhA] at hH
    have hexp : ∀ i : ℕ,
        simA.S * ops.exp ((simA.r - simA.sigma ^ 2 / 2) * (i : ℚ) * simA.dt)
          = simA.S * ops.exp ((simA.r - (1/2) * simA.sigma ^ 2) * simA.dt) ^ i := by
      intro i
      rw [← exp_hom_pow ops hE h1]
      congr 1
      ring
    unfold CV.run
    rw [hH, hexp k]
    cases k with
    | zero => simp
    | succ i =>
        have hi : i < simA.n_steps.toNat := by omega
        rw [List.singleton_append, List.getElem?_cons_succ, List.getElem?_map,
          List.getElem?_range hi]
        simp
  · have hH := (ha_runSteps_spot ops simB simB.n_steps.toNat).2
    rw [hhB] at hH
    have hexp : ∀ i : ℕ,
        simB.S * ops.exp ((simB.r - simB.sigma ^ 2 / 2) * (i : ℚ) * simB.dt)
          = simB.S * ops.exp ((simB.r - (1/2) * simB.sigma ^ 2) * simB.dt) ^ i := by
      intro i
      rw [← exp_hom_pow ops hE h1]
      congr 1
      ring
    unfold HA.run_simulation
    rw [hH, hexp j]
    cases j with
    | zero => simp
    | succ i =>
        have hi : i < simB.n_steps.toNat := by omega
        rw [List.singleton_append, List.getElem?_cons_succ, List.getElem?_map,
          List.getElem?_range hi]
        simp

/-- Witness for C8: ops0.exp is the constant-1 homomorphism; with
S0=K=100, T=1, r=0, σ=1, n_steps=1 the element at index 1 is read off. -/
theorem C8_zero_shock_drift_witness :
    (CV.run ops0 zeroShocks (CV.initState 100 100 1 0 1 1)).1.stock_price_history[(1 : ℕ)]?
        = some ((CV.initState 100 100 1 0 1 1).S * ops0.exp
            (((CV.initState 100 100 1 0 1 1).r - (CV.initState 100 100 1 0 1 1).sigma ^ 2 / 2)
              * ((1 : ℕ) : ℚ) * (CV.initState 100 100 1 0 1 1).dt))
  ∧ (HA.run_simulation ops0 zeroShocks (HA.initState 100 100 1 0 1 1)).1.stock_price_history[(1 : ℕ)]?
        = some ((HA.initState 100 100 1 0 1 1).S * ops0.exp
            (((HA.initState 100 100 1 0 1 1).r - (HA.initState 100 100 1 0 1 1).sigma ^ 2 / 2)
              * ((1 : ℕ) : ℚ) * (HA.initState 100 100 1 0 1 1).dt)) :=
  C8_zero_shock_drift ops0 (fun a b => by norm_num [ops0]) rfl
    (CV.initState 100 100 1 0 1 1) rfl (HA.initState 100 100 1 0 1 1) rfl
    1 1 (by norm_num [CV.initState]) (by norm_num [HA.initState])
